import Mathlib

/-!
Shallow embedding of the catalog store, admin mutation handlers and the
payment-intent lifecycle of `src/telegram_bot.py`, together with theorems
checking the natural-language specification against the code.

The Python module keeps two global insertion-ordered dictionaries,
`CATEGORIES : key -> list of item keys` and `ITEMS : key -> item record`.
We embed them as association lists (insertion-ordered, unique keys built by
construction) and each handler as an explicit state-passing function from
the pre-state to (result, post-state).  Network calls (Blockonomics),
`os.path.exists` and the success of `reply_document` / `save_json` are
environment parameters: the handlers branch on them exactly as the Python
code branches on the corresponding exceptions / truth values.
-/

namespace TeleBot

/-! ### Python string helpers (`str.strip`, `str.lower`, `str.isalnum`) -/

/-- `str.lower` restricted to ASCII, applied character-wise (as Python does). -/
def py_lower (s : String) : String := ⟨s.data.map Char.toLower⟩

/-- Drop leading and trailing whitespace from a character list (`str.strip`). -/
def stripChars (l : List Char) : List Char :=
  ((l.dropWhile Char.isWhitespace).reverse.dropWhile Char.isWhitespace).reverse

/-- Python `str.strip()`. -/
def py_strip (s : String) : String := ⟨stripChars s.data⟩

/-- Python `str.isalnum()`: nonempty and every character alphanumeric. -/
def py_isalnum (s : String) : Bool := !s.data.isEmpty && s.data.all Char.isAlphanum

/-- The normalization every key-receiving handler applies first:
`update.message.text.strip().lower()`. -/
def normalize_key (s : String) : String := py_lower (py_strip s)

/-- Python `str.split(sep)` for the one-character separator `":"` used by the
callback-data encoding. -/
def splitColonChars (l : List Char) : List (List Char) :=
  match l with
  | [] => [[]]
  | c :: rest =>
    let r := splitColonChars rest
    if c = ':' then [] :: r
    else
      match r with
      | [] => [[c]]
      | h :: t => (c :: h) :: t

/-- `data.split(":")` from the callback routers. -/
def splitColon (s : String) : List String :=
  (splitColonChars s.data).map (fun l => ⟨l⟩)

/-- `data.startswith(p)` (Python) / the prefix tests of the dispatcher. -/
def strStartsWith (s p : String) : Bool := s.data.take p.data.length == p.data

/-! ### Insertion-ordered dictionaries (Python `dict` on string keys) -/

/-- `d.get(k)` / `d[k]` lookup: first matching key. -/
def dictGet {α : Type} (d : List (String × α)) (k : String) : Option α :=
  match d with
  | [] => none
  | (k', v) :: rest => if k' = k then some v else dictGet rest k

/-- `k in d`. -/
def dictMem {α : Type} (d : List (String × α)) (k : String) : Bool :=
  (dictGet d k).isSome

/-- `d[k] = v`: update in place if the key exists, else append at the end
(Python dicts preserve insertion order). -/
def dictSet {α : Type} (d : List (String × α)) (k : String) (v : α) :
    List (String × α) :=
  match d with
  | [] => [(k, v)]
  | (k', v') :: rest =>
    if k' = k then (k, v) :: rest else (k', v') :: dictSet rest k v

/-- `d.pop(k, None)`: remove the entry for `k` (no-op when absent). -/
def dictPop {α : Type} (d : List (String × α)) (k : String) :
    List (String × α) :=
  match d with
  | [] => []
  | (k', v') :: rest =>
    if k' = k then dictPop rest k else (k', v') :: dictPop rest k

/-- `d[k].field = v`: modify the value stored at `k` in place, touching no
other entry and inserting nothing. -/
def dictUpdate {α : Type} (d : List (String × α)) (k : String) (f : α → α) :
    List (String × α) :=
  match d with
  | [] => []
  | (k', v) :: rest =>
    if k' = k then (k', f v) :: dictUpdate rest k f
    else (k', v) :: dictUpdate rest k f

/-! ### Data model -/

/-- One record of the `ITEMS` table: `{"name": ..., "price_btc": ...,
"file_path": ...}`.  Python floats are embedded as rationals. -/
structure Item where
  name : String
  price_btc : ℚ
  file_path : String
deriving Repr, DecidableEq

abbrev ItemTable := List (String × Item)

abbrev CategoryTable := List (String × List String)

/-- The two global tables `CATEGORIES` and `ITEMS`. -/
structure Store where
  categories : CategoryTable
  items : ItemTable
deriving Repr, DecidableEq

/-- `DEFAULT_ITEMS` from the source (prices 0.00005, 0.00008, 0.00002 BTC). -/
def DEFAULT_ITEMS : ItemTable :=
  [("ebook_python",
    { name := "Python Basics eBook", price_btc := 5 / 100000,
      file_path := "items/python_basics.pdf" }),
   ("video_git",
    { name := "Git & GitHub Tutorial (MP4)", price_btc := 8 / 100000,
      file_path := "items/git_tutorial.mp4" }),
   ("template_resume",
    { name := "Professional Resume Template", price_btc := 2 / 100000,
      file_path := "items/resume_template.docx" })]

/-- `DEFAULT_CATEGORIES` from the source. -/
def DEFAULT_CATEGORIES : CategoryTable :=
  [("ebooks", ["ebook_python"]),
   ("videos", ["video_git"]),
   ("templates", ["template_resume"])]

/-- The store as initialized when no JSON files exist. -/
def storeDefault : Store :=
  { categories := DEFAULT_CATEGORIES, items := DEFAULT_ITEMS }

/-- `ADMIN_USER_ID` from the source configuration block. -/
def ADMIN_USER_ID : Nat := 7260656020

/-- `is_admin_user`: the caller is the single configured administrator. -/
def is_admin_user (user_id : Nat) : Bool := user_id == ADMIN_USER_ID

/-- Referential integrity: every key listed in any category's item list
exists in the item table. -/
def refIntegrity (s : Store) : Prop :=
  ∀ c ∈ s.categories, ∀ k ∈ c.2, dictMem s.items k = true

/-- Every category's item list is free of duplicates (spec §3 invariant). -/
def nodupCats (s : Store) : Prop :=
  ∀ c ∈ s.categories, c.2.Nodup

instance (s : Store) : Decidable (refIntegrity s) := by
  unfold refIntegrity; infer_instance

instance (s : Store) : Decidable (nodupCats s) := by
  unfold nodupCats; infer_instance

/-! ### Catalog mutation handlers (admin flows)

Each function is the pure core of the like-named `async def` in the source:
chat replies are abstracted into the result constructor, the global tables
into the explicit `Store`, and `context.user_data` entries into explicit
arguments. -/

inductive CatAddResult
  | invalidKey
  | duplicateKey
  | created (key : String)
  | saveFault
deriving Repr, DecidableEq

/-- `admin_cat_add_receive` with the success of `save_json` made explicit:
the in-memory table is mutated first, then the file write runs; a write
failure raises out of the handler with the mutation already applied. -/
def admin_cat_add_receive_persist (saveOk : Bool) (s : Store) (text : String) :
    CatAddResult × Store :=
  let key := normalize_key text
  if ¬ py_isalnum key then (.invalidKey, s)
  else if dictMem s.categories key then (.duplicateKey, s)
  else
    let s' := { s with categories := dictSet s.categories key [] }
    if saveOk then (.created key, s') else (.saveFault, s')

/-- `admin_cat_add_receive` (persistence write succeeding). -/
def admin_cat_add_receive (s : Store) (text : String) : CatAddResult × Store :=
  admin_cat_add_receive_persist true s text

inductive CatRenameResult
  | notFound
  | invalidKey
  | duplicateKey
  | renamed (newKey : String)
deriving Repr, DecidableEq

/-- `admin_cat_edit_receive`: rename a category.  `old_key` is
`context.user_data.get('admin_edit_category_key')`. -/
def admin_cat_edit_receive (s : Store) (old_key : Option String)
    (text : String) : CatRenameResult × Store :=
  let new_key := normalize_key text
  match old_key with
  | none => (.notFound, s)
  | some ok =>
    if ok = "" then (.notFound, s)
    else
      match dictGet s.categories ok with
      | none => (.notFound, s)
      | some lst =>
        if ¬ py_isalnum new_key then (.invalidKey, s)
        else if dictMem s.categories new_key then (.duplicateKey, s)
        else (.renamed new_key,
          { s with categories := dictSet (dictPop s.categories ok) new_key lst })

inductive CatDeleteResult
  | noneSelected
  | deleted (key : String)
deriving Repr, DecidableEq

/-- `admin_cat_delete_execute`: `CATEGORIES.pop(key, None)`; items remain. -/
def admin_cat_delete_execute (s : Store) (staged : Option String) :
    CatDeleteResult × Store :=
  match staged with
  | none => (.noneSelected, s)
  | some key =>
    if key = "" then (.noneSelected, s)
    else (.deleted key, { s with categories := dictPop s.categories key })

inductive ItemKeyResult
  | invalidKey
  | duplicateKey
  | accepted (key : String)
deriving Repr, DecidableEq

/-- `admin_item_add_key_received`: validates the new item key; the store is
never touched by this step. -/
def admin_item_add_key_received (s : Store) (text : String) :
    ItemKeyResult × Store :=
  let key := normalize_key text
  if ¬ py_isalnum key then (.invalidKey, s)
  else if dictMem s.items key then (.duplicateKey, s)
  else (.accepted key, s)

/-- The commit step of `admin_item_add_category_selected`:
`ITEMS[key] = {...}; CATEGORIES.setdefault(cat, []).append(key)`. -/
def admin_item_add_commit (s : Store) (cat key nm : String) (price : ℚ)
    (path : String) : Store :=
  let items' := dictSet s.items key
    { name := nm, price_btc := price, file_path := path }
  let cur := (dictGet s.categories cat).getD []
  { items := items', categories := dictSet s.categories cat (cur ++ [key]) }

inductive ItemField
  | name
  | price_btc
  | file_path
deriving Repr, DecidableEq

inductive FieldEditResult
  | noSelection
  | invalidPrice
  | pathMissing
  | keyFault
  | updated
deriving Repr, DecidableEq

/-- `admin_item_field_value_received`.  `parsedPrice` is the outcome of
`float(text)` (`none` when parsing raises), `pathExists` the outcome of
`os.path.exists(text)`.  `keyFault` marks the uncaught `KeyError` the Python
code raises on `ITEMS[item_key]` when the staged key has vanished; the store
is unchanged there. -/
def admin_item_field_value_received (s : Store) (item_key : Option String)
    (field : Option ItemField) (text : String) (parsedPrice : Option ℚ)
    (pathExists : Bool) : FieldEditResult × Store :=
  match item_key, field with
  | none, _ => (.noSelection, s)
  | some _, none => (.noSelection, s)
  | some k, some f =>
    if k = "" then (.noSelection, s)
    else
      match f with
      | .price_btc =>
        match parsedPrice with
        | none => (.invalidPrice, s)
        | some v =>
          if v ≤ 0 then (.invalidPrice, s)
          else if ¬ dictMem s.items k then (.keyFault, s)
          else
            (.updated,
             { s with items :=
                 dictUpdate s.items k (fun it => { it with price_btc := v }) })
      | .file_path =>
        if ¬ pathExists then (.pathMissing, s)
        else if ¬ dictMem s.items k then (.keyFault, s)
        else
          (.updated,
           { s with items :=
               dictUpdate s.items k (fun it => { it with file_path := text }) })
      | .name =>
        if ¬ dictMem s.items k then (.keyFault, s)
        else
          (.updated,
           { s with items :=
               dictUpdate s.items k (fun it => { it with name := text }) })

/-- `admin_item_move_category`: remove the staged item key from every
category list (`list.remove` after an `in` guard: first occurrence), then
`CATEGORIES.setdefault(new_cat, []).append(item_key)`.  No check that
`item_key` still exists in `ITEMS` is performed by the source. -/
def admin_item_move_category (s : Store) (item_key new_cat : String) : Store :=
  let cats := s.categories.map (fun c => (c.1, c.2.erase item_key))
  let cur := (dictGet cats new_cat).getD []
  { s with categories := dictSet cats new_cat (cur ++ [item_key]) }

inductive ItemDeleteResult
  | notFound
  | deleted (key : String)
deriving Repr, DecidableEq

/-- `admin_item_delete_execute`: `ITEMS.pop(item_key, None)` and strip the
key (first occurrence) from every category list. -/
def admin_item_delete_execute (s : Store) (staged : Option String) :
    ItemDeleteResult × Store :=
  match staged with
  | none => (.notFound, s)
  | some key =>
    if key = "" ∨ ¬ dictMem s.items key then (.notFound, s)
    else (.deleted key,
      { items := dictPop s.items key,
        categories := s.categories.map (fun c => (c.1, c.2.erase key)) })

/-! ### Payment-intent lifecycle (`handle_buy_request`, `cmd_confirm`) -/

/-- `context.user_data['pending_payment']`. -/
structure Pending where
  item_key : String
  address : String
  amount : ℚ
deriving Repr, DecidableEq

inductive BuyResult
  | itemNotFound
  | gatewayUnavailable
  | intentCreated (addr : String) (amount : ℚ)
deriving Repr, DecidableEq

/-- `handle_buy_request`: `newAddress` is the outcome of
`blockonomics_new_address()` (`none` when it raises). -/
def handle_buy_request (newAddress : Option String) (items : ItemTable)
    (pending : Option Pending) (item_key : String) :
    BuyResult × Option Pending :=
  match dictGet items item_key with
  | none => (.itemNotFound, pending)
  | some item =>
    match newAddress with
    | none => (.gatewayUnavailable, pending)
    | some addr =>
      (.intentCreated addr item.price_btc,
       some { item_key := item_key, address := addr, amount := item.price_btc })

inductive ConfirmResult
  | noPending
  | checkFailed
  | itemNotFound
  | fileMissing
  | sendFailed
  | fulfilled (nm : String)
  | insufficient (received : ℚ)
deriving Repr, DecidableEq

/-- The fixed tolerance `1e-12` of `cmd_confirm`. -/
def tol : ℚ := 1 / 10 ^ 12

/-- Environment of one `cmd_confirm` run: the gateway balance reply
(`none` when `blockonomics_check_balance` raises), whether
`os.path.exists(file_path)` holds, and whether `reply_document` succeeds. -/
structure ConfirmEnv where
  balance : Option ℚ
  fileExists : Bool
  sendOk : Bool
deriving Repr, DecidableEq

/-- `cmd_confirm`: the `/confirm` handler.  Returns the user-visible outcome
and the session's pending intent afterwards (`del` only after a successful
`reply_document`). -/
def cmd_confirm (env : ConfirmEnv) (items : ItemTable)
    (pending : Option Pending) : ConfirmResult × Option Pending :=
  match pending with
  | none => (.noPending, none)
  | some p =>
    match env.balance with
    | none => (.checkFailed, some p)
    | some received =>
      if p.amount - tol ≤ received then
        match dictGet items p.item_key with
        | none => (.itemNotFound, some p)
        | some item =>
          if item.file_path = "" ∨ env.fileExists = false then
            (.fileMissing, some p)
          else if env.sendOk then (.fulfilled item.name, none)
          else (.sendFailed, some p)
      else (.insufficient received, some p)

/-! ### The admin callback dispatcher (`generic_admin_callback_dispatch`)

The source registers this handler for every callback whose data starts with
`admin:`; its body contains no `is_admin_user` check.  We embed the branches
that touch the global tables or `context.user_data`; branches that only
render menus leave the state unchanged. -/

/-- The `context.user_data` slots consumed by the dispatcher's branches. -/
structure UserData where
  admin_edit_category_key : Option String := none
  admin_delete_category_key : Option String := none
  admin_edit_item_key : Option String := none
  admin_delete_item_key : Option String := none
deriving Repr, DecidableEq

/-- One user's view of the bot: the global tables plus that user's
`context.user_data`. -/
structure BotState where
  store : Store
  ud : UserData
deriving Repr, DecidableEq

/-- `parts[3] if len(parts) >= 4 else None` over `data.split(":")`. -/
def callbackArg3 (data : String) : Option String := (splitColon data).get? 3

/-- `generic_admin_callback_dispatch`, the central dispatch for `admin:...`
callback data.  `user_id` is the caller's Telegram id, available through
`update.effective_user`; note that no branch consults it. -/
def generic_admin_callback_dispatch (user_id : Nat) (data : String)
    (st : BotState) : BotState :=
  have _ := user_id
  if data = "admin:cat:add" then st
  else if strStartsWith data "admin:cat:edit:" then
    match callbackArg3 data with
    | some key =>
      if dictMem st.store.categories key then
        { st with ud := { st.ud with admin_edit_category_key := some key } }
      else st
    | none => st
  else if strStartsWith data "admin:cat:del:" then
    match callbackArg3 data with
    | some key =>
      if key ≠ "" ∧ dictMem st.store.categories key then
        { st with ud := { st.ud with admin_delete_category_key := some key } }
      else st
    | none => st
  else if data = "admin:cat:confirm_del" then
    { st with
      store := (admin_cat_delete_execute st.store
        st.ud.admin_delete_category_key).2 }
  else if data = "admin:cat:back" then st
  else if data = "admin:item:add" then st
  else if strStartsWith data "admin:item:edit:" then
    match callbackArg3 data with
    | some key =>
      if dictMem st.store.items key then
        { st with ud := { st.ud with admin_edit_item_key := some key } }
      else st
    | none => st
  else if strStartsWith data "admin:item:del:" then
    match callbackArg3 data with
    | some key =>
      if key ≠ "" ∧ dictMem st.store.items key then
        { st with ud := { st.ud with admin_delete_item_key := some key } }
      else st
    | none => st
  else if data = "admin:item:confirm_del" then
    { st with
      store := (admin_item_delete_execute st.store
        st.ud.admin_delete_item_key).2 }
  else if strStartsWith data "admin:item:field:" then st
  else if strStartsWith data "admin:item:move:" then
    match st.ud.admin_edit_item_key with
    | some k =>
      { st with
        store := admin_item_move_category st.store k
          ((splitColon data).getLastD "") }
    | none => st
  else st

/-! ### Dictionary lemmas -/

theorem dictGet_dictSet_self {α : Type} (d : List (String × α)) (k : String)
    (v : α) : dictGet (dictSet d k v) k = some v := by
  induction d with
  | nil => simp [dictSet, dictGet]
  | cons p rest ih =>
    obtain ⟨k', v'⟩ := p
    by_cases h : k' = k
    · simp [dictSet, h, dictGet]
    · simp [dictSet, h, dictGet, ih]

theorem dictGet_dictSet_ne {α : Type} (d : List (String × α)) {k k' : String}
    (h : k' ≠ k) (v : α) : dictGet (dictSet d k v) k' = dictGet d k' := by
  have hne : k ≠ k' := fun hh => h hh.symm
  induction d with
  | nil => simp [dictSet, dictGet, hne]
  | cons p rest ih =>
    obtain ⟨k₀, v₀⟩ := p
    by_cases hk : k₀ = k
    · subst hk
      simp [dictSet, dictGet, hne]
    · simp only [dictSet, if_neg hk, dictGet]
      by_cases hk' : k₀ = k'
      · simp [hk']
      · simp [hk', ih]

theorem dictGet_dictPop_self {α : Type} (d : List (String × α)) (k : String) :
    dictGet (dictPop d k) k = none := by
  induction d with
  | nil => simp [dictPop, dictGet]
  | cons p rest ih =>
    obtain ⟨k', v'⟩ := p
    by_cases h : k' = k
    · simp [dictPop, h, ih]
    · simp [dictPop, h, dictGet, ih]

theorem dictGet_dictPop_ne {α : Type} (d : List (String × α)) {k k' : String}
    (h : k' ≠ k) : dictGet (dictPop d k) k' = dictGet d k' := by
  have hne : k ≠ k' := fun hh => h hh.symm
  induction d with
  | nil => simp [dictPop]
  | cons p rest ih =>
    obtain ⟨k₀, v₀⟩ := p
    by_cases hk : k₀ = k
    · subst hk
      simp [dictPop, dictGet, hne, ih]
    · simp only [dictPop, if_neg hk, dictGet]
      by_cases hk' : k₀ = k'
      · simp [hk']
      · simp [hk', ih]

theorem mem_dictSet {α : Type} {d : List (String × α)} {k : String} {v : α}
    {p : String × α} (h : p ∈ dictSet d k v) : p = (k, v) ∨ p ∈ d := by
  induction d with
  | nil => simpa [dictSet] using h
  | cons q rest ih =>
    obtain ⟨k₀, v₀⟩ := q
    by_cases hk : k₀ = k
    · simp only [dictSet, if_pos hk, List.mem_cons] at h
      rcases h with h | h
      · exact Or.inl h
      · exact Or.inr (List.mem_cons_of_mem _ h)
    · simp only [dictSet, if_neg hk, List.mem_cons] at h
      rcases h with h | h
      · exact Or.inr (h ▸ List.mem_cons_self _ _)
      · rcases ih h with h' | h'
        · exact Or.inl h'
        · exact Or.inr (List.mem_cons_of_mem _ h')

theorem mem_dictPop {α : Type} {d : List (String × α)} {k : String}
    {p : String × α} (h : p ∈ dictPop d k) : p ∈ d := by
  induction d with
  | nil => simp [dictPop] at h
  | cons q rest ih =>
    obtain ⟨k₀, v₀⟩ := q
    by_cases hk : k₀ = k
    · simp only [dictPop, if_pos hk] at h
      exact List.mem_cons_of_mem _ (ih h)
    · simp only [dictPop, if_neg hk, List.mem_cons] at h
      rcases h with h | h
      · exact h ▸ List.mem_cons_self _ _
      · exact List.mem_cons_of_mem _ (ih h)

theorem dictGet_mem {α : Type} {d : List (String × α)} {k : String} {v : α}
    (h : dictGet d k = some v) : (k, v) ∈ d := by
  induction d with
  | nil => simp [dictGet] at h
  | cons q rest ih =>
    obtain ⟨k₀, v₀⟩ := q
    by_cases hk : k₀ = k
    · simp only [dictGet, if_pos hk, Option.some.injEq] at h
      subst hk
      subst h
      exact List.mem_cons_self _ _
    · simp only [dictGet, if_neg hk] at h
      exact List.mem_cons_of_mem _ (ih h)

theorem dictMem_dictSet {α : Type} (d : List (String × α)) (k : String)
    (v : α) (k' : String) :
    dictMem (dictSet d k v) k' = true ↔ (k' = k ∨ dictMem d k' = true) := by
  by_cases h : k' = k
  · subst h
    simp [dictMem, dictGet_dictSet_self]
  · simp [dictMem, dictGet_dictSet_ne d h, h]

theorem dictGet_mapValues {α : Type} (f : α → α) (d : List (String × α))
    (k : String) :
    dictGet (d.map (fun p => (p.1, f p.2))) k = (dictGet d k).map f := by
  induction d with
  | nil => simp [dictGet]
  | cons q rest ih =>
    obtain ⟨k₀, v₀⟩ := q
    by_cases hk : k₀ = k
    · simp [dictGet, hk]
    · simp [dictGet, hk, ih]

theorem dictMem_dictUpdate {α : Type} (d : List (String × α)) (k : String)
    (f : α → α) (k' : String) :
    dictMem (dictUpdate d k f) k' = dictMem d k' := by
  induction d with
  | nil => simp [dictUpdate]
  | cons q rest ih =>
    obtain ⟨k₀, v₀⟩ := q
    simp only [dictMem] at ih ⊢
    by_cases hk : k₀ = k
    · subst hk
      by_cases hk' : k₀ = k'
      · subst hk'
        simp [dictUpdate, dictGet]
      · simp [dictUpdate, dictGet, hk', ih]
    · by_cases hk' : k₀ = k'
      · subst hk'
        simp [dictUpdate, dictGet, hk]
      · simp [dictUpdate, dictGet, hk, hk', ih]

theorem dictMem_dictPop_ne {α : Type} (d : List (String × α)) {k k' : String}
    (h : k' ≠ k) : dictMem (dictPop d k) k' = dictMem d k' := by
  simp [dictMem, dictGet_dictPop_ne d h]

theorem dictGet_mapErase (d : CategoryTable) (key k : String) :
    dictGet (d.map (fun c => (c.1, c.2.erase key))) k =
      (dictGet d k).map (fun l => l.erase key) := by
  induction d with
  | nil => simp [dictGet]
  | cons q rest ih =>
    obtain ⟨k₀, v₀⟩ := q
    by_cases hk : k₀ = k
    · simp [dictGet, hk]
    · simp [dictGet, hk, ih]

/-! ### Referential-integrity preservation, one lemma per mutation -/

theorem refIntegrity_addCat (s : Store) (key : String) (h : refIntegrity s) :
    refIntegrity { s with categories := dictSet s.categories key [] } := by
  intro c hc k hk
  rcases mem_dictSet hc with h' | h'
  · subst h'
    simp at hk
  · exact h c h' k hk

theorem refIntegrity_rename (s : Store) (ok newk : String) (lst : List String)
    (hget : dictGet s.categories ok = some lst) (h : refIntegrity s) :
    refIntegrity
      { s with categories := dictSet (dictPop s.categories ok) newk lst } := by
  intro c hc k hk
  rcases mem_dictSet hc with h' | h'
  · subst h'
    exact h (ok, lst) (dictGet_mem hget) k hk
  · exact h c (mem_dictPop h') k hk

theorem refIntegrity_delCat (s : Store) (key : String) (h : refIntegrity s) :
    refIntegrity { s with categories := dictPop s.categories key } := by
  intro c hc k hk
  exact h c (mem_dictPop hc) k hk

theorem refIntegrity_addItem (s : Store) (cat key nm : String) (price : ℚ)
    (path : String) (h : refIntegrity s) :
    refIntegrity (admin_item_add_commit s cat key nm price path) := by
  intro c hc k hk
  simp only [admin_item_add_commit] at hc ⊢
  rw [dictMem_dictSet]
  rcases mem_dictSet hc with h' | h'
  · subst h'
    rcases List.mem_append.1 hk with hk' | hk'
    · right
      cases hcat : dictGet s.categories cat with
      | none => rw [hcat] at hk'; simp at hk'
      | some l =>
        rw [hcat] at hk'
        exact h (cat, l) (dictGet_mem hcat) k hk'
    · left
      simpa using hk'
  · exact Or.inr (h c h' k hk)

theorem refIntegrity_updateItems (s : Store) (k0 : String) (f : Item → Item)
    (h : refIntegrity s) :
    refIntegrity { s with items := dictUpdate s.items k0 f } := by
  intro c hc k hk
  show dictMem (dictUpdate s.items k0 f) k = true
  rw [dictMem_dictUpdate]
  exact h c hc k hk

theorem refIntegrity_move (s : Store) (key new_cat : String)
    (hkey : dictMem s.items key = true) (h : refIntegrity s) :
    refIntegrity (admin_item_move_category s key new_cat) := by
  intro c hc k hk
  simp only [admin_item_move_category] at hc ⊢
  rcases mem_dictSet hc with h' | h'
  · subst h'
    rcases List.mem_append.1 hk with hk' | hk'
    · cases hcat : dictGet s.categories new_cat with
      | none =>
        rw [dictGet_mapErase, hcat] at hk'
        simp at hk'
      | some l =>
        rw [dictGet_mapErase, hcat] at hk'
        have hk₂ : k ∈ l.erase key := hk'
        exact h (new_cat, l) (dictGet_mem hcat) k (List.mem_of_mem_erase hk₂)
    · simp only [List.mem_singleton] at hk'
      subst hk'
      exact hkey
  · rcases List.mem_map.1 h' with ⟨c₂, hc₂, rfl⟩
    exact h c₂ hc₂ k (List.mem_of_mem_erase hk)

theorem refIntegrity_delItem (s : Store) (key : String)
    (h : refIntegrity s) (hnd : nodupCats s) :
    refIntegrity
      { items := dictPop s.items key,
        categories := s.categories.map (fun c => (c.1, c.2.erase key)) } := by
  intro c hc k hk
  rcases List.mem_map.1 hc with ⟨c₂, hc₂, rfl⟩
  have hk₂ : k ∈ c₂.2 := List.mem_of_mem_erase hk
  have hkne : k ≠ key := by
    intro he
    subst he
    exact (hnd c₂ hc₂).not_mem_erase hk
  show dictMem (dictPop s.items key) k = true
  rw [dictMem_dictPop_ne _ hkne]
  exact h c₂ hc₂ k hk₂

/-! ### Concrete fixtures used by witnesses and counterexamples -/

/-- A small catalog: one category `ebooks` holding the single item `bk1`. -/
def itemW : Item :=
  { name := "Guide", price_btc := 1 / 10000, file_path := "items/guide.pdf" }

def storeW : Store :=
  { categories := [("ebooks", ["bk1"])], items := [("bk1", itemW)] }

/-- `0 ≤ tol`, used to discharge tolerance hypotheses at concrete inputs. -/
theorem tol_nonneg : (0 : ℚ) ≤ tol := by norm_num [tol]

/-! ### Claim C2 -/

/-- Claim C2 as stated is false: `admin_item_move_category` performs no check
that the staged item key still exists, so moving a key that is absent from
the item table commits an orphan reference.  Concretely, from the
referentially-intact store with one empty category `c` and no items, moving
key `x` into `c` yields a store violating referential integrity. -/
theorem c2_counterexample :
    refIntegrity { categories := [("c", [])], items := [] } ∧
    ¬ refIntegrity
        (admin_item_move_category
          { categories := [("c", [])], items := [] } "x" "c") := by
  constructor
  · decide
  · decide

/-- Claim C2 (amended): referential integrity is preserved by
`add_category`, `rename_category`, `delete_category`, `add_item` and
`edit_item_field` unconditionally, by `move_item` provided the moved key
still exists in the item table (the code performs no such check), and by
`delete_item` for stores whose category lists are duplicate-free (the §3
invariant); after a successful `delete_item(key)` no category lists `key`. -/
theorem c2_refIntegrity_preserved (s : Store) (hri : refIntegrity s) :
    (∀ t, refIntegrity (admin_cat_add_receive s t).2) ∧
    (∀ ok t, refIntegrity (admin_cat_edit_receive s ok t).2) ∧
    (∀ staged, refIntegrity (admin_cat_delete_execute s staged).2) ∧
    (∀ cat key nm price path,
      refIntegrity (admin_item_add_commit s cat key nm price path)) ∧
    (∀ ik fld v pp pe,
      refIntegrity (admin_item_field_value_received s ik fld v pp pe).2) ∧
    (∀ key nc, dictMem s.items key = true →
      refIntegrity (admin_item_move_category s key nc)) ∧
    (nodupCats s → ∀ staged,
      refIntegrity (admin_item_delete_execute s staged).2) ∧
    (nodupCats s → ∀ key, dictMem s.items key = true → key ≠ "" →
      ∀ c ∈ ((admin_item_delete_execute s (some key)).2).categories,
        key ∉ c.2) := by
  refine ⟨?_, ?_, ?_, ?_, ?_, ?_, ?_, ?_⟩
  · intro t
    by_cases h1 : py_isalnum (normalize_key t)
    · by_cases h2 : dictMem s.categories (normalize_key t)
      · simp only [admin_cat_add_receive, admin_cat_add_receive_persist,
          h1, h2, not_true, if_neg, if_pos, if_false, if_true]
        simpa [h1, h2] using hri
      · simp only [admin_cat_add_receive, admin_cat_add_receive_persist]
        simp only [h1, h2]
        simpa using refIntegrity_addCat s (normalize_key t) hri
    · simp only [admin_cat_add_receive, admin_cat_add_receive_persist]
      simp only [h1]
      simpa using hri
  · intro ok t
    rcases ok with _ | okk
    · exact hri
    by_cases hempty : okk = ""
    · simp [admin_cat_edit_receive, hempty]
      exact hri
    cases hget : dictGet s.categories okk with
    | none =>
      simp [admin_cat_edit_receive, hempty, hget]
      exact hri
    | some lst =>
      by_cases h1 : py_isalnum (normalize_key t)
      · by_cases h2 : dictMem s.categories (normalize_key t)
        · simp [admin_cat_edit_receive, hempty, hget, h1, h2]
          exact hri
        · simp [admin_cat_edit_receive, hempty, hget, h1, h2]
          exact refIntegrity_rename s okk (normalize_key t) lst hget hri
      · simp [admin_cat_edit_receive, hempty, hget, h1]
        exact hri
  · intro staged
    rcases staged with _ | key
    · exact hri
    by_cases hempty : key = ""
    · simp [admin_cat_delete_execute, hempty]
      exact hri
    · simp [admin_cat_delete_execute, hempty]
      exact refIntegrity_delCat s key hri
  · intro cat key nm price path
    exact refIntegrity_addItem s cat key nm price path hri
  · intro ik fld v pp pe
    rcases ik with _ | k
    · exact hri
    rcases fld with _ | f
    · exact hri
    by_cases hk : k = ""
    · simp [admin_item_field_value_received, hk]
      exact hri
    cases f with
    | price_btc =>
      rcases pp with _ | pv
      · simp [admin_item_field_value_received, hk]
        exact hri
      by_cases hv : pv ≤ 0
      · simp [admin_item_field_value_received, hk, hv]
        exact hri
      by_cases hm : dictMem s.items k
      · simp [admin_item_field_value_received, hk, hv, hm]
        exact refIntegrity_updateItems s _ _ hri
      · simp [admin_item_field_value_received, hk, hv, hm]
        exact hri
    | file_path =>
      by_cases hp : pe = true
      · by_cases hm : dictMem s.items k
        · simp [admin_item_field_value_received, hk, hp, hm]
          exact refIntegrity_updateItems s _ _ hri
        · simp [admin_item_field_value_received, hk, hp, hm]
          exact hri
      · simp [admin_item_field_value_received, hk, hp]
        exact hri
    | name =>
      by_cases hm : dictMem s.items k
      · simp [admin_item_field_value_received, hk, hm]
        exact refIntegrity_updateItems s _ _ hri
      · simp [admin_item_field_value_received, hk, hm]
        exact hri
  · intro key nc hkey
    exact refIntegrity_move s key nc hkey hri
  · intro hnd staged
    rcases staged with _ | key
    · exact hri
    simp only [admin_item_delete_execute]
    split
    · exact hri
    · exact refIntegrity_delItem s key hri hnd
  · intro hnd key hkey hne c hc
    have hg : ¬ (key = "" ∨ ¬ dictMem s.items key = true) := by
      intro hor
      rcases hor with h1 | h2
      · exact hne h1
      · exact h2 hkey
    simp only [admin_item_delete_execute] at hc
    rw [if_neg hg] at hc
    have hc' : c ∈ s.categories.map (fun c => (c.1, c.2.erase key)) := hc
    rcases List.mem_map.1 hc' with ⟨c₂, hc₂, rfl⟩
    exact (hnd c₂ hc₂).not_mem_erase

/-- Witness for C2: the hypotheses of `c2_refIntegrity_preserved` hold at the
concrete store `storeW` and the theorem applies there. -/
theorem c2_refIntegrity_preserved_witness :
    refIntegrity storeW ∧
    ((∀ t, refIntegrity (admin_cat_add_receive storeW t).2) ∧
     (∀ ok t, refIntegrity (admin_cat_edit_receive storeW ok t).2) ∧
     (∀ staged, refIntegrity (admin_cat_delete_execute storeW staged).2) ∧
     (∀ cat key nm price path,
       refIntegrity (admin_item_add_commit storeW cat key nm price path)) ∧
     (∀ ik fld v pp pe,
       refIntegrity (admin_item_field_value_received storeW ik fld v pp pe).2) ∧
     (∀ key nc, dictMem storeW.items key = true →
       refIntegrity (admin_item_move_category storeW key nc)) ∧
     (nodupCats storeW → ∀ staged,
       refIntegrity (admin_item_delete_execute storeW staged).2) ∧
     (nodupCats storeW → ∀ key, dictMem storeW.items key = true → key ≠ "" →
       ∀ c ∈ ((admin_item_delete_execute storeW (some key)).2).categories,
         key ∉ c.2)) :=
  ⟨by decide, c2_refIntegrity_preserved storeW (by decide)⟩

/-! ### Claim C3 -/

/-- Claim C3 as stated is false: the default store's item key `ebook_python`
is present in the item table, yet resubmitting it to the item-add key step
fails the `isalnum` check (which runs before the duplicate check) because of
the underscore, so the reported error is InvalidKey, not DuplicateKey. -/
theorem c3_counterexample :
    dictMem storeDefault.items "ebook_python" = true ∧
    (admin_item_add_key_received storeDefault "ebook_python").1 =
      ItemKeyResult.invalidKey := by
  exact ⟨by decide, by decide⟩

/-- Claim C3 (amended): for every key in valid submitted form — alphanumeric
and fixed by the strip/lowercase normalization — that is already present in
the relevant table, resubmitting it fails DuplicateKey and leaves both
tables unchanged; a present key that is not alphanumeric fails InvalidKey
instead (the store again unchanged). -/
theorem c3_duplicate_key (s : Store) (key : String)
    (hnorm : normalize_key key = key) :
    (py_isalnum key = true → dictMem s.categories key = true →
      admin_cat_add_receive s key = (CatAddResult.duplicateKey, s)) ∧
    (py_isalnum key = true → dictMem s.items key = true →
      admin_item_add_key_received s key = (ItemKeyResult.duplicateKey, s)) ∧
    (py_isalnum key = false →
      admin_cat_add_receive s key = (CatAddResult.invalidKey, s) ∧
      admin_item_add_key_received s key = (ItemKeyResult.invalidKey, s)) := by
  refine ⟨?_, ?_, ?_⟩
  · intro ha hm
    simp [admin_cat_add_receive, admin_cat_add_receive_persist, hnorm, ha, hm]
  · intro ha hm
    simp [admin_item_add_key_received, hnorm, ha, hm]
  · intro ha
    constructor
    · simp [admin_cat_add_receive, admin_cat_add_receive_persist, hnorm, ha]
    · simp [admin_item_add_key_received, hnorm, ha]

/-- Witness for C3 at the default store and the category key `ebooks`. -/
theorem c3_duplicate_key_witness :
    normalize_key "ebooks" = "ebooks" ∧
    ((py_isalnum "ebooks" = true →
       dictMem storeDefault.categories "ebooks" = true →
       admin_cat_add_receive storeDefault "ebooks" =
         (CatAddResult.duplicateKey, storeDefault)) ∧
     (py_isalnum "ebooks" = true → dictMem storeDefault.items "ebooks" = true →
       admin_item_add_key_received storeDefault "ebooks" =
         (ItemKeyResult.duplicateKey, storeDefault)) ∧
     (py_isalnum "ebooks" = false →
       admin_cat_add_receive storeDefault "ebooks" =
         (CatAddResult.invalidKey, storeDefault) ∧
       admin_item_add_key_received storeDefault "ebooks" =
         (ItemKeyResult.invalidKey, storeDefault))) :=
  ⟨by decide, c3_duplicate_key storeDefault "ebooks" (by decide)⟩

/-! ### Claim C7 -/

/-- Claim C7: for an existing category `oldk` and a valid unused new key,
rename moves the item-key list verbatim (order preserved) to the new key,
removes the old key, and leaves the item table untouched; with the old key
absent it fails NotFound, with the new key taken it fails DuplicateKey, and
with a malformed new key it fails InvalidKey — the store unchanged in every
failure case. -/
theorem c7_rename_category (s : Store) (oldk t : String)
    (hnorm : normalize_key t = t) :
    (∀ lst, dictGet s.categories oldk = some lst → oldk ≠ "" →
      py_isalnum t = true → dictMem s.categories t = false →
      admin_cat_edit_receive s (some oldk) t =
        (CatRenameResult.renamed t,
         { s with categories := dictSet (dictPop s.categories oldk) t lst }) ∧
      dictGet (dictSet (dictPop s.categories oldk) t lst) t = some lst ∧
      dictMem (dictSet (dictPop s.categories oldk) t lst) oldk = false ∧
      ((admin_cat_edit_receive s (some oldk) t).2).items = s.items) ∧
    (dictMem s.categories oldk = false →
      admin_cat_edit_receive s (some oldk) t = (CatRenameResult.notFound, s)) ∧
    (oldk ≠ "" → dictMem s.categories oldk = true → py_isalnum t = true →
      dictMem s.categories t = true →
      admin_cat_edit_receive s (some oldk) t =
        (CatRenameResult.duplicateKey, s)) ∧
    (oldk ≠ "" → dictMem s.categories oldk = true → py_isalnum t = false →
      admin_cat_edit_receive s (some oldk) t =
        (CatRenameResult.invalidKey, s)) := by
  refine ⟨?_, ?_, ?_, ?_⟩
  · intro lst hget hne ha hfree
    have hne2 : oldk ≠ t := by
      intro he
      rw [he] at hget
      rw [dictMem, hget] at hfree
      simp at hfree
    have heq : admin_cat_edit_receive s (some oldk) t =
        (CatRenameResult.renamed t,
         { s with categories := dictSet (dictPop s.categories oldk) t lst }) := by
      simp [admin_cat_edit_receive, hne, hget, hnorm, ha, hfree]
    refine ⟨heq, dictGet_dictSet_self _ _ _, ?_, by rw [heq]⟩
    have hnot : ¬ (dictMem (dictSet (dictPop s.categories oldk) t lst) oldk
        = true) := by
      rw [dictMem_dictSet]
      rintro (h | h)
      · exact hne2 h
      · rw [dictMem, dictGet_dictPop_self] at h
        simp at h
    simpa using hnot
  · intro hmem
    by_cases hempty : oldk = ""
    · simp [admin_cat_edit_receive, hempty]
    · cases hget : dictGet s.categories oldk with
      | none => simp [admin_cat_edit_receive, hempty, hget]
      | some l =>
        rw [dictMem, hget] at hmem
        simp at hmem
  · intro hne hmem ha hdup
    obtain ⟨lst, hget⟩ : ∃ l, dictGet s.categories oldk = some l := by
      cases hget : dictGet s.categories oldk with
      | none =>
        rw [dictMem, hget] at hmem
        simp at hmem
      | some l => exact ⟨l, rfl⟩
    simp [admin_cat_edit_receive, hne, hget, hnorm, ha, hdup]
  · intro hne hmem ha
    obtain ⟨lst, hget⟩ : ∃ l, dictGet s.categories oldk = some l := by
      cases hget : dictGet s.categories oldk with
      | none =>
        rw [dictMem, hget] at hmem
        simp at hmem
      | some l => exact ⟨l, rfl⟩
    simp [admin_cat_edit_receive, hne, hget, hnorm, ha]

/-- Witness for C7: renaming `ebooks` to `guides` in the one-category store
moves the list `["bk1"]` verbatim. -/
theorem c7_rename_category_witness :
    normalize_key "guides" = "guides" ∧
    dictGet storeW.categories "ebooks" = some ["bk1"] ∧
    ("ebooks" : String) ≠ "" ∧
    py_isalnum "guides" = true ∧
    dictMem storeW.categories "guides" = false ∧
    admin_cat_edit_receive storeW (some "ebooks") "guides" =
      (CatRenameResult.renamed "guides",
       { storeW with
         categories := dictSet (dictPop storeW.categories "ebooks") "guides"
           ["bk1"] }) :=
  ⟨by decide, rfl, by decide, by decide, by decide,
   ((c7_rename_category storeW "ebooks" "guides" (by decide)).1 ["bk1"] rfl
     (by decide) (by decide) (by decide)).1⟩

/-! ### Claim C8 -/

/-- Claim C8: deleting an existing category removes exactly that entry: the
item table is untouched (items become orphaned, not deleted) and every other
category's list is unchanged. -/
theorem c8_delete_category_frame (s : Store) (key : String)
    (hmem : dictMem s.categories key = true) (hne : key ≠ "") :
    (admin_cat_delete_execute s (some key)).1 = CatDeleteResult.deleted key ∧
    ((admin_cat_delete_execute s (some key)).2).items = s.items ∧
    dictMem ((admin_cat_delete_execute s (some key)).2).categories key
      = false ∧
    (∀ k', k' ≠ key →
      dictGet ((admin_cat_delete_execute s (some key)).2).categories k' =
        dictGet s.categories k') := by
  have _ := hmem
  have heq : admin_cat_delete_execute s (some key) =
      (CatDeleteResult.deleted key,
       { s with categories := dictPop s.categories key }) := by
    simp [admin_cat_delete_execute, hne]
  rw [heq]
  refine ⟨rfl, rfl, ?_, ?_⟩
  · simp [dictMem, dictGet_dictPop_self]
  · intro k' hk'
    exact dictGet_dictPop_ne _ hk'

/-- Witness for C8 at the one-category store. -/
theorem c8_delete_category_frame_witness :
    dictMem storeW.categories "ebooks" = true ∧ ("ebooks" : String) ≠ "" ∧
    ((admin_cat_delete_execute storeW (some "ebooks")).2).items =
      storeW.items :=
  ⟨by decide, by decide,
   (c8_delete_category_frame storeW "ebooks" (by decide) (by decide)).2.1⟩

/-! ### Claim C9 -/

/-- Claim C9 as stated is false: with the persistence write failing, adding
category `abc` to the empty store raises out of the handler with the
in-memory table already mutated — the post-failure store differs from the
pre-mutation store, and no typed error is returned. -/
theorem c9_counterexample :
    (admin_cat_add_receive_persist false
        { categories := [], items := [] } "abc").1 = CatAddResult.saveFault ∧
    (admin_cat_add_receive_persist false
        { categories := [], items := [] } "abc").2 ≠
      ({ categories := [], items := [] } : Store) ∧
    ((admin_cat_add_receive_persist false
        { categories := [], items := [] } "abc").2).categories =
      [("abc", [])] :=
  ⟨by decide, by decide, by decide⟩

/-- Claim C9 (amended): when the synchronous persistence write fails, the
in-memory catalog is NOT rolled back — the post-failure in-memory state is
exactly the post-mutation state (identical to the state after a successful
write) and the failure escapes as an uncaught fault instead of a typed
result. -/
theorem c9_no_rollback (s : Store) (t : String)
    (ha : py_isalnum (normalize_key t) = true)
    (hm : dictMem s.categories (normalize_key t) = false) :
    admin_cat_add_receive_persist false s t =
      (CatAddResult.saveFault,
       { s with categories := dictSet s.categories (normalize_key t) [] }) ∧
    (admin_cat_add_receive_persist false s t).2 =
      (admin_cat_add_receive_persist true s t).2 := by
  constructor
  · simp [admin_cat_add_receive_persist, ha, hm]
  · simp [admin_cat_add_receive_persist, ha, hm]

/-- Witness for C9: adding `abc` to the one-category store with the write
failing. -/
theorem c9_no_rollback_witness :
    py_isalnum (normalize_key "abc") = true ∧
    dictMem storeW.categories (normalize_key "abc") = false ∧
    admin_cat_add_receive_persist false storeW "abc" =
      (CatAddResult.saveFault,
       { storeW with
         categories := dictSet storeW.categories (normalize_key "abc") [] }) :=
  ⟨by decide, by decide, (c9_no_rollback storeW "abc" (by decide)
    (by decide)).1⟩

/-! ### Payment fixtures -/

def itemsW : ItemTable := [("bk1", itemW)]

def pW : Pending := { item_key := "bk1", address := "addr", amount := 1 / 10000 }

/-! ### Claim C4 -/

/-- Claim C4: with the item present and deliverable, `/confirm` resolves
Fulfilled exactly when the confirmed balance is at least `amount_due − 1e-12`
(in particular at `amount_due` and at `amount_due − 2e-13`), and otherwise
reports Insufficient with the received amount, the intent remaining live. -/
theorem c4_confirm_tolerance (items : ItemTable) (p : Pending) (received : ℚ)
    (item : Item) (hitem : dictGet items p.item_key = some item)
    (hpath : item.file_path ≠ "") :
    ((cmd_confirm (⟨some received, true, true⟩ : ConfirmEnv) items (some p)).1 = ConfirmResult.fulfilled item.name
      ↔ p.amount - tol ≤ received) ∧
    (p.amount - tol ≤ received →
      cmd_confirm (⟨some received, true, true⟩ : ConfirmEnv) items (some p) =
        (ConfirmResult.fulfilled item.name, none)) ∧
    (received < p.amount - tol →
      cmd_confirm (⟨some received, true, true⟩ : ConfirmEnv) items (some p) =
        (ConfirmResult.insufficient received, some p)) ∧
    (cmd_confirm (⟨some p.amount, true, true⟩ : ConfirmEnv) items (some p)).1 =
      ConfirmResult.fulfilled item.name ∧
    (cmd_confirm (⟨some (p.amount - 2 / 10 ^ 13), true, true⟩ : ConfirmEnv) items (some p)).1 =
      ConfirmResult.fulfilled item.name := by
  have hfull : ∀ r : ℚ, p.amount - tol ≤ r →
      cmd_confirm (⟨some r, true, true⟩ : ConfirmEnv)
        items (some p) = (ConfirmResult.fulfilled item.name, none) := by
    intro r hle
    simp [cmd_confirm, hitem, hpath, hle]
  have hinsuf : ∀ r : ℚ, ¬ (p.amount - tol ≤ r) →
      cmd_confirm (⟨some r, true, true⟩ : ConfirmEnv)
        items (some p) = (ConfirmResult.insufficient r, some p) := by
    intro r hlt
    simp [cmd_confirm, hitem, hpath, hlt]
  refine ⟨?_, fun h => hfull received h,
    fun h => hinsuf received (not_le.mpr h), ?_, ?_⟩
  · constructor
    · intro hres
      by_contra hlt
      rw [hinsuf received hlt] at hres
      simp at hres
    · intro hle
      rw [hfull received hle]
  · rw [hfull p.amount (sub_le_self _ tol_nonneg)]
  · have h13 : p.amount - tol ≤ p.amount - 2 / 10 ^ 13 := by
      have : (2 : ℚ) / 10 ^ 13 ≤ tol := by norm_num [tol]
      linarith
    rw [hfull _ h13]

/-- Witness for C4: the item `bk1` at the exact price. -/
theorem c4_confirm_tolerance_witness :
    dictGet itemsW pW.item_key = some itemW ∧
    itemW.file_path ≠ "" ∧
    (cmd_confirm (⟨some pW.amount, true, true⟩ : ConfirmEnv) itemsW (some pW)).1 =
      ConfirmResult.fulfilled itemW.name :=
  ⟨rfl, by decide,
   (c4_confirm_tolerance itemsW pW 0 itemW rfl (by decide)).2.2.2.1⟩

/-! ### Claim C5 -/

/-- Claim C5: when gateway address creation fails for an existing item, the
buy request fails GatewayUnavailable and the session's pending-intent slot is
exactly what it was before; in particular, with no prior intent, a following
`/confirm` fails NoPendingIntent. -/
theorem c5_gateway_failure (items : ItemTable) (pending : Option Pending)
    (item_key : String) (item : Item)
    (hitem : dictGet items item_key = some item) :
    handle_buy_request none items pending item_key =
      (BuyResult.gatewayUnavailable, pending) ∧
    (pending = none → ∀ env : ConfirmEnv,
      cmd_confirm env items
        (handle_buy_request none items pending item_key).2 =
        (ConfirmResult.noPending, none)) := by
  constructor
  · simp [handle_buy_request, hitem]
  · intro hpend env
    simp [handle_buy_request, hitem, hpend, cmd_confirm]

/-- Witness for C5: gateway failure buying `bk1` with no prior intent. -/
theorem c5_gateway_failure_witness :
    dictGet itemsW "bk1" = some itemW ∧
    handle_buy_request none itemsW none "bk1" =
      (BuyResult.gatewayUnavailable, none) ∧
    cmd_confirm (⟨none, true, true⟩ : ConfirmEnv)
      itemsW (handle_buy_request none itemsW none "bk1").2 =
      (ConfirmResult.noPending, none) :=
  ⟨rfl, (c5_gateway_failure itemsW none "bk1" itemW rfl).1,
   (c5_gateway_failure itemsW none "bk1" itemW rfl).2 rfl
     (⟨none, true, true⟩ : ConfirmEnv)⟩

/-! ### Claim C6 -/

/-- Claim C6: with payment verified, a fulfillment failure (missing file or
failed send) leaves the intent in the session for retry; the intent is
cleared only when delivery actually succeeds. -/
theorem c6_fulfillment_retry (env : ConfirmEnv) (items : ItemTable)
    (p : Pending) (received : ℚ) (hb : env.balance = some received)
    (hr : p.amount - tol ≤ received) :
    ((cmd_confirm env items (some p)).2 = none →
      env.sendOk = true ∧ ∃ item, dictGet items p.item_key = some item ∧
        (cmd_confirm env items (some p)).1 =
          ConfirmResult.fulfilled item.name) ∧
    (∀ item, dictGet items p.item_key = some item →
      (item.file_path = "" ∨ env.fileExists = false) →
      cmd_confirm env items (some p) = (ConfirmResult.fileMissing, some p)) ∧
    (∀ item, dictGet items p.item_key = some item → item.file_path ≠ "" →
      env.fileExists = true → env.sendOk = false →
      cmd_confirm env items (some p) = (ConfirmResult.sendFailed, some p)) := by
  refine ⟨?_, ?_, ?_⟩
  · intro hnone
    cases hitem : dictGet items p.item_key with
    | none =>
      rw [show cmd_confirm env items (some p) =
          (ConfirmResult.itemNotFound, some p) by
        simp [cmd_confirm, hb, hr, hitem]] at hnone
      simp at hnone
    | some item =>
      by_cases hfm : item.file_path = "" ∨ env.fileExists = false
      · rw [show cmd_confirm env items (some p) =
            (ConfirmResult.fileMissing, some p) by
          simp [cmd_confirm, hb, hr, hitem, hfm]] at hnone
        simp at hnone
      · cases hsend : env.sendOk with
        | false =>
          rw [show cmd_confirm env items (some p) =
              (ConfirmResult.sendFailed, some p) by
            simp [cmd_confirm, hb, hr, hitem, hfm, hsend]] at hnone
          simp at hnone
        | true =>
          refine ⟨rfl, ⟨item, rfl, ?_⟩⟩
          simp [cmd_confirm, hb, hr, hitem, hfm, hsend]
  · intro item hitem hfm
    simp [cmd_confirm, hb, hr, hitem, hfm]
  · intro item hitem hne hfe hsend
    simp [cmd_confirm, hb, hr, hitem, hne, hfe, hsend]

/-- Witness for C6: payment verified for `bk1` but the send fails; the
intent survives. -/
theorem c6_fulfillment_retry_witness :
    ((⟨some (1 / 10000), true, false⟩ : ConfirmEnv).balance = some (1 / 10000)) ∧
    pW.amount - tol ≤ 1 / 10000 ∧
    dictGet itemsW pW.item_key = some itemW ∧
    itemW.file_path ≠ "" ∧
    cmd_confirm (⟨some (1 / 10000), true, false⟩ : ConfirmEnv) itemsW (some pW) =
      (ConfirmResult.sendFailed, some pW) :=
  ⟨rfl, sub_le_self _ tol_nonneg, rfl, by decide,
   (c6_fulfillment_retry
      (⟨some (1 / 10000), true, false⟩ : ConfirmEnv)
      itemsW pW (1 / 10000) rfl (sub_le_self _ tol_nonneg)).2.2 itemW rfl
     (by decide) rfl rfl⟩

/-! ### Claim C10 -/

/-- Claim C10: a pending intent whose item key has vanished from the item
table makes a sufficiently-funded `/confirm` fail with item-not-found,
delivering nothing and keeping the intent in the session. -/
theorem c10_stale_intent (env : ConfirmEnv) (items : ItemTable) (p : Pending)
    (received : ℚ) (hb : env.balance = some received)
    (hr : p.amount - tol ≤ received)
    (hmiss : dictGet items p.item_key = none) :
    cmd_confirm env items (some p) = (ConfirmResult.itemNotFound, some p) := by
  simp [cmd_confirm, hb, hr, hmiss]

/-- Witness for C10: the intent for `bk1` against an empty item table. -/
theorem c10_stale_intent_witness :
    ((⟨some (1 / 10000), true, true⟩ : ConfirmEnv).balance = some (1 / 10000)) ∧
    pW.amount - tol ≤ 1 / 10000 ∧
    dictGet ([] : ItemTable) pW.item_key = none ∧
    cmd_confirm (⟨some (1 / 10000), true, true⟩ : ConfirmEnv) ([] : ItemTable) (some pW) =
      (ConfirmResult.itemNotFound, some pW) :=
  ⟨rfl, sub_le_self _ tol_nonneg, rfl,
   c10_stale_intent
     (⟨some (1 / 10000), true, true⟩ : ConfirmEnv)
     ([] : ItemTable) pW (1 / 10000) rfl (sub_le_self _ tol_nonneg) rfl⟩

/-! ### Claim C1 -/

/-- Claim C1 is violated by the code: `generic_admin_callback_dispatch`
performs no `is_admin_user` check, so a non-administrator (user id 12345)
issuing the callbacks `admin:cat:del:ebooks` and then
`admin:cat:confirm_del` deletes category `ebooks` from the store instead of
failing Unauthorized with the store unchanged. -/
theorem c1_dispatch_skips_auth :
    is_admin_user 12345 = false ∧
    dictMem storeDefault.categories "ebooks" = true ∧
    (generic_admin_callback_dispatch 12345 "admin:cat:confirm_del"
        (generic_admin_callback_dispatch 12345 "admin:cat:del:ebooks"
          { store := storeDefault, ud := {} })).store.categories =
      [("videos", ["video_git"]), ("templates", ["template_resume"])] :=
  ⟨by decide, by decide, by decide⟩

end TeleBot
